import Mathlib

/-!
A formal model of the grizzly streaming query processor, shallow-embedded
from its Go sources.  Each definition carries a note naming the Go function
it translates (pkg/compiler/compiler.go, pkg/utility/utility.go (catalog
part), pkg/engine/engine.go, pkg/operator/operator.go, pkg/functor).

Modelling conventions:
* channels between the single-producer / single-consumer workers become
  lists processed in order, worker loops become folds;
* capnp row handles become plain structures or association lists;
* Go `time.Time` becomes `Nat` (seconds since epoch; all modelled instants
  are positive, so `Time.Truncate` is flooring division);
* Go `float64` becomes `Rat`; the modelled programs only combine values on
  which IEEE double arithmetic is exact (small integers and halves), and
  the claims under study concern types and control flow, not rounding;
* a Go runtime panic (there is no recover anywhere in the engine) becomes
  an `Except` error that aborts the enclosing worker.
-/

namespace Grizzly

/-! ## Catalog data model (capnp/grizzly schema, pkg/catalog) -/

inductive FieldType where
  | boolean
  | float64
  | integer64
  | text
  deriving DecidableEq

inductive FieldUsage where
  | data
  | time
  | group
  | sequence
  deriving DecidableEq

/-- A catalog / plan field: `grizzly.Field` (name, type, usage, properties). -/
structure Field where
  name : String
  type : FieldType
  usage : FieldUsage
  properties : List (String × String)
  deriving DecidableEq

/-! ## catalog.FindField (pkg/utility/utility.go, catalog part)

`FindTable` sets `err = errors.New("cannot find table")` when the walk ends
without a match.  `FindField`, by contrast, iterates `field = fields.At(i)`
and returns as soon as the name matches; when no name matches it falls off
the loop and executes the bare `return`, so the named results hold the LAST
field assigned and a nil error.  The loop is translated literally below:
`findFieldGoAux cur rest` is the loop with `field = cur` already assigned. -/

def findFieldGoAux (cur : Field) (rest : List Field) (fieldName : String) : Field :=
  if cur.name = fieldName then cur
  else
    match rest with
    | [] => cur
    | g :: gs => findFieldGoAux g gs fieldName

/-- `catalog.FindField`, given that `FindTable` already succeeded and produced
the table's field list.  On an empty field list the Go named return `field`
keeps its zero value, modelled by the zero field below.  The error component
is always nil: no assignment to `err` exists on the miss path. -/
def FindField (fields : List Field) (fieldName : String) : Except String Field :=
  match fields with
  | [] => Except.ok ⟨"", FieldType.boolean, FieldUsage.data, []⟩
  | f :: rest => Except.ok (findFieldGoAux f rest fieldName)

/-- One `grizzly.Call` as assembled by `addAggregateFunction`. -/
structure Call where
  functionName : String
  inputField : Field
  outputName : String
  outputType : FieldType
  deriving DecidableEq

/-- `(*queryListener).addAggregateFunction` (pkg/compiler/compiler.go):
looks the input field up with `catalog.FindField`, panics (compile error)
only when that returns a non-nil error, and otherwise builds the call.
When `outputType` is nil the output field type is the input field's type
(the float64 override is passed only by the average and count cases). -/
def addAggregateFunction (tableFields : List Field) (functionName : String)
    (inputFieldName : String) (aggregateAliasFieldName : String)
    (outputType : Option FieldType) : Except String Call :=
  match FindField tableFields inputFieldName with
  | Except.error e => Except.error e
  | Except.ok field =>
      Except.ok
        ⟨functionName, field, aggregateAliasFieldName,
          match outputType with
          | some t => t
          | none => field.type⟩

/-- `ExitAggregateSum`: `addAggregateFunction("sum", field, nil)` — no
output-type override. -/
def ExitAggregateSum (tableFields : List Field) (fieldName : String)
    (aliasName : String) : Except String Call :=
  addAggregateFunction tableFields "sum" fieldName aliasName none

/-- `ExitAggregateAverage`: `addAggregateFunction("average", field, &float64)`. -/
def ExitAggregateAverage (tableFields : List Field) (fieldName : String)
    (aliasName : String) : Except String Call :=
  addAggregateFunction tableFields "average" fieldName aliasName (some FieldType.float64)

/-! ## Schema copying in the compiler (pkg/compiler/compiler.go) -/

/-- The body of `copyFieldsHelper`: a fresh field is written with the old
field's type, usage, name, and a copy of each key/value property. -/
def copyOneField (f : Field) : Field :=
  ⟨f.name, f.type, f.usage, f.properties.map (fun p => (p.1, p.2))⟩

/-- `copyFieldsHelper`: element-wise copy of a field list. -/
def copyFieldsHelper (oldFields : List Field) : List Field :=
  oldFields.map copyOneField

/-- `copyFields(from, to)`: returns unchanged when `from.HasFields()` is
false (field list never set), else overwrites the target with a copy.
Schemas are `Option (List Field)`: `none` models an absent capnp field
list. -/
def copyFields (src : Option (List Field)) (dst : Option (List Field)) :
    Option (List Field) :=
  match src with
  | none => dst
  | some fs => some (copyFieldsHelper fs)

/-- The output schemas of the three plan nodes the From clause touches. -/
structure CompileNodes where
  ingressFields : Option (List Field)
  ingressFilterFields : Option (List Field)
  windowFields : Option (List Field)

/-- `(*queryListener).ExitFromClause`: attach the catalog table's fields to
the Ingress node, then `copyFields(ingress, ingressFilter)` and
`copyFields(ingress, window)`.  No later listener callback writes the
fields of these three nodes again. -/
def ExitFromClause (tableFields : List Field) (st : CompileNodes) : CompileNodes :=
  let st1 : CompileNodes := ⟨some tableFields, st.ingressFilterFields, st.windowFields⟩
  ⟨st1.ingressFields,
    copyFields st1.ingressFields st1.ingressFilterFields,
    copyFields st1.ingressFields st1.windowFields⟩

/-! ## Session-window plan properties (pkg/compiler/compiler.go) -/

/-- `SetWindowNodeProperties`: allocates seven window-node properties and
assigns indices 0-3 (window type, interval type, amount, unit), 5
(session_close_inclusive) and 6 (sequence_field_name); index 4 is never
written and stays the empty capnp text. -/
def SetWindowNodeProperties (windowType intervalType intervalAmount
    intervalUnit sessionCloseInclusive sequenceFieldName : String) :
    List (String × String) :=
  [("window_type", windowType), ("interval_type", intervalType),
   ("interval_amount", intervalAmount), ("interval_unit", intervalUnit),
   ("", ""), ("session_close_inclusive", sessionCloseInclusive),
   ("sequence_field_name", sequenceFieldName)]

/-- `ExitSessionClose`: the only property write for a session window —
`SetWindowNodeProperties(windowNode, "session", "N/A", "N/A", "N/A",
sessionCloseInclusive, sequenceFieldName)`.  The `expire after` duration
parsed by `ExitDuration` is not among the arguments, and
`ExitSessionWindow` then flushes the collected definitions, so no plan
property carries the expiry. -/
def sessionWindowProperties (sessionCloseInclusive sequenceFieldName : String) :
    List (String × String) :=
  SetWindowNodeProperties "session" "N/A" "N/A" "N/A" sessionCloseInclusive
    sequenceFieldName

/-! ## Session windows (SessionWindowWorker, pkg/engine/engine.go)

The ungrouped branch.  The worker state is the current window (open iff
non-empty).  One loop iteration consumes one row from the ingress-filter
channel and possibly sends one window on the aggregate channel; the
emitted windows are collected in arrival order.  Translated literally:
on a close the code first resets `window` to an empty slice, appends the
closing row iff the plan's `session_close_inclusive` flag is set, sends
THAT slice, and only then re-runs the open predicate on the same row. -/

def sessionStep {ρ : Type} (openP closeP : ρ → Bool) (inclusive : Bool)
    (window : List ρ) (row : ρ) : List ρ × List (List ρ) :=
  if window.isEmpty then
    (if openP row then [row] else window, [])
  else
    if !closeP row then
      (window ++ [row], [])
    else
      let w := if inclusive then [row] else []
      (if openP row then [row] else w, [w])

def sessionRunAux {ρ : Type} (openP closeP : ρ → Bool) (inclusive : Bool)
    (window : List ρ) : List ρ → List ρ × List (List ρ)
  | [] => (window, [])
  | r :: rs =>
      let stepped := sessionStep openP closeP inclusive window r
      let rest := sessionRunAux openP closeP inclusive stepped.1 rs
      (rest.1, stepped.2 ++ rest.2)

/-- `SessionWindowWorker` without a group-by clause, run over a finite row
stream: final window state and the list of windows sent to the aggregate
stage. -/
def sessionRun {ρ : Type} (openP closeP : ρ → Bool) (inclusive : Bool)
    (rows : List ρ) : List ρ × List (List ρ) :=
  sessionRunAux openP closeP inclusive [] rows

/-! ## Replay-time windows (ReplayTimeWindowWorker, engine.go) -/

/-- An ingress row as the replay worker sees it: an integer payload field
`x` and the `based on` timestamp `t` (seconds; `operator.Timestamp` parses
the RFC3339 text field). -/
structure SRow where
  x : Int
  t : Nat
  deriving DecidableEq

/-- `surroundingTimeInterval` (engine.go): `lo = t.Truncate(slice)`,
`hi = lo.Add(slice)`.  For instants after the epoch, `Truncate` floors. -/
def surroundingTimeInterval (t slice : Nat) : Nat × Nat :=
  let lo := t / slice * slice
  (lo, lo + slice)

structure ReplayState where
  hi : Nat
  window : List SRow
  deriving DecidableEq

/-- One iteration of the ungrouped `ReplayTimeWindowWorker` loop:
`if hi.Before(t)` — strictly less — emit the window when non-empty, start
a fresh window holding the row, and set `hi` from
`surroundingTimeInterval`; otherwise append the row to the open window. -/
def replayTimeStep (chunk : Nat) (s : ReplayState) (row : SRow) :
    ReplayState × List (List SRow) :=
  if s.hi < row.t then
    (⟨(surroundingTimeInterval row.t chunk).2, [row]⟩,
      if s.window.isEmpty then [] else [s.window])
  else
    (⟨s.hi, s.window ++ [row]⟩, [])

def replayTimeRunAux (chunk : Nat) (s : ReplayState) :
    List SRow → ReplayState × List (List SRow)
  | [] => (s, [])
  | r :: rs =>
      let stepped := replayTimeStep chunk s r
      let rest := replayTimeRunAux chunk stepped.1 rs
      (rest.1, stepped.2 ++ rest.2)

/-- `ReplayTimeWindowWorker` without grouping over a finite stream.  `hi`
starts as the zero `time.Time`.  When the stream ends, the worker blocks
on its input channel: the final state's window is simply never emitted. -/
def replayTimeRun (chunk : Nat) (rows : List SRow) :
    ReplayState × List (List SRow) :=
  replayTimeRunAux chunk ⟨0, []⟩ rows

/-! ## Live-time windows (LiveTimeWindowWorker, engine.go)

The ungrouped branch serialised: the inner goroutine appends arriving rows
under the mutex; the select loop, on a ticker event, sends the current
window — whether or not it holds any row — and replaces it by an empty
one.  A finite history of the two event sources is a list of events. -/

inductive LiveEvent (ρ : Type) where
  | row (r : ρ)
  | tick
  deriving DecidableEq

def liveTimeRunAux {ρ : Type} (window : List ρ) :
    List (LiveEvent ρ) → List (List ρ)
  | [] => []
  | LiveEvent.row r :: es => liveTimeRunAux (window ++ [r]) es
  | LiveEvent.tick :: es => window :: liveTimeRunAux [] es

/-- Windows sent to the aggregate stage by the ungrouped
`LiveTimeWindowWorker` over a finite event history. -/
def liveTimeRun {ρ : Type} (events : List (LiveEvent ρ)) : List (List ρ) :=
  liveTimeRunAux [] events

/-! ## The aggregate stage (AggregateWorker, engine.go) -/

/-- `AggregateWorker`: receives windows in order; after `Reset`, a window
of length zero executes `break`, leaving the receive loop for good, so
windows after the first empty one are never aggregated.  `agg` is the
per-window computation (fold the functors over the rows, read the values,
assemble the aggregate row). -/
def aggregateWorkerOutputs {ρ α : Type} (agg : List ρ → α) :
    List (List ρ) → List α
  | [] => []
  | w :: ws => if w.isEmpty then [] else agg w :: aggregateWorkerOutputs agg ws

/-! ## Group keys (WindowGroup, engine.go)

`GroupKey` formats each group field value with `fmt.Sprintf("%v", v)` and
concatenates the results in `groupFieldNames` order with no separator.
Group payloads are association lists from field name to the formatted
value (for text group fields the format is the identity). -/

def lookupGroupValue (group : List (String × String)) (name : String) : String :=
  match List.lookup name group with
  | some v => v
  | none => ""

def GroupKey (groupFieldNames : List String) (group : List (String × String)) :
    String :=
  groupFieldNames.foldl (fun key name => key ++ lookupGroupValue group name) ""

/-- A row as the grouping code sees it: its group view. -/
structure GRow where
  group : List (String × String)
  deriving DecidableEq

/-- Per-key open windows: the Go `map[string]Window` as an association
list (insertion order; key sets, not order, matter to the claims). -/
structure WindowGroup where
  groupFieldNames : List String
  windows : List (String × List GRow)
  deriving DecidableEq

def CreateWindowGroup (groupFieldNames : List String) : WindowGroup :=
  ⟨groupFieldNames, []⟩

def assocSet (key : String) (w : List GRow) :
    List (String × List GRow) → List (String × List GRow)
  | [] => [(key, w)]
  | kv :: rest =>
      if kv.1 = key then (key, w) :: rest else kv :: assocSet key w rest

/-- `(*WindowGroup).Append`: compute the row's key; a missing entry opens
a window holding just the row, an existing one is extended. -/
def WindowGroup.Append (wg : WindowGroup) (row : GRow) : WindowGroup :=
  let key := GroupKey wg.groupFieldNames row.group
  match List.lookup key wg.windows with
  | none => ⟨wg.groupFieldNames, assocSet key [row] wg.windows⟩
  | some w => ⟨wg.groupFieldNames, assocSet key (w ++ [row]) wg.windows⟩

/-! ## Aggregate functors (pkg/functor) specialised to scenario 1

The `Averager`, `Summer`, `Counter`, `First` and `Last` functors, folded
over one window of `SRow`s exactly as `Aggregate.Update` feeds them:
`avg(x)`, `sum(x)`, `count()`, `first(t)`, `last(t)`. -/

/-- `Averager`: `Count++` and `Sum += float64(value)` per update. -/
def averagerFold (w : List SRow) : Nat × Rat :=
  w.foldl (fun acc r => (acc.1 + 1, acc.2 + (r.x : Rat))) (0, 0)

/-- `Averager.Value`: `Sum / float64(Count)`. -/
def averagerValue (w : List SRow) : Rat :=
  (averagerFold w).2 / ((averagerFold w).1 : Rat)

/-- `Summer` over the integer64 field `x`: `Sum += float64(value)`. -/
def summerFoldX (w : List SRow) : Rat :=
  w.foldl (fun acc r => acc + (r.x : Rat)) 0

/-- `Counter`: one increment per update; `Value` returns `float64(Count)`. -/
def counterValue (w : List SRow) : Nat :=
  w.length

/-- `Aggregate.Value` writing an integer64 output field:
`strconv.ParseInt(fmt.Sprintf("%v", value), ...)` on the functor's float64
value — succeeds exactly on integral values (range aside). -/
def ratToGoInt (q : Rat) : Option Int :=
  if q.den = 1 then some q.num else none

/-- The aggregate row of scenario 1 before projection:
`avg(x) as a, sum(x) as s, count() as n, first(t) as begin, last(t) as e`.
Per `addAggregateFunction`, `a` is float64 (explicit override), `s`
inherits integer64 from `x`, `n` is integer64, `b` and `e` inherit the
text timestamp of `t` (carried as the parsed instant). -/
structure Scenario1AggRow where
  a : Rat
  s : Int
  n : Int
  b : Nat
  e : Nat
  deriving DecidableEq

/-- One `AggregateWorker` iteration body for scenario 1: update every
functor with each row of the window, then read the five values
(`First` holds the first update, `Last` the last). -/
def scenario1AggregateRow (w : List SRow) : Option Scenario1AggRow :=
  match ratToGoInt (summerFoldX w), ratToGoInt ((counterValue w : Int) : Rat),
      w.head?, w.getLast? with
  | some s, some n, some fr, some lr =>
      some ⟨averagerValue w, s, n, fr.t, lr.t⟩
  | _, _, _, _ => none

/-- The projected/egressed row of scenario 1: `append a, s, n, e` keeps
those four payload fields in order (`b` is dropped). -/
structure Scenario1Out where
  a : Rat
  s : Int
  n : Int
  e : Nat
  deriving DecidableEq

/-- `Project.Project` for scenario 1. -/
def projectScenario1 (r : Scenario1AggRow) : Scenario1Out :=
  ⟨r.a, r.s, r.n, r.e⟩

/-- `GoPassthroughEvalFunction`: with no `where` clause the generated
ingress filter always returns true. -/
def evalIngressFilterPassthrough (_ : SRow) : Bool :=
  true

/-- `ProjectWorker` for scenario 1: one projected row per aggregate row,
in order; a `none` (an upstream panic) aborts the run. -/
def projectWorkerRun : List (Option Scenario1AggRow) → Option (List Scenario1Out)
  | [] => some []
  | none :: _ => none
  | some r :: rest =>
      match projectWorkerRun rest with
      | none => none
      | some outs => some (projectScenario1 r :: outs)

/-- Scenario 1 end to end (`Engine.Run` wiring of the worker chain):
ingress filter (passthrough), `ReplayTimeWindowWorker` with a 10-second
chunk, `AggregateWorker`, passthrough aggregate filter, `ProjectWorker`,
passthrough project filter, egress.  `none` would signal a worker panic
(it does not occur on the scenario input). -/
def scenario1Pipeline (rows : List SRow) : Option (List Scenario1Out) :=
  let filtered := rows.filter evalIngressFilterPassthrough
  let windows := (replayTimeRun 10 filtered).2
  projectWorkerRun (aggregateWorkerOutputs scenario1AggregateRow windows)

/-- The nine input rows of scenario 1: x = 1..9 at 17:00:01, :04, :11,
:12, :17, :26, :40, :43, :49 (seconds since midnight; 17:00:00 = 61200). -/
def scenario1Rows : List SRow :=
  [⟨1, 61201⟩, ⟨2, 61204⟩, ⟨3, 61211⟩, ⟨4, 61212⟩, ⟨5, 61217⟩,
   ⟨6, 61226⟩, ⟨7, 61240⟩, ⟨8, 61243⟩, ⟨9, 61249⟩]

/-! ## Compiled filter predicates (pkg/codegen, pkg/_out/functions)

A `where` clause is compiled by the listener into a Go expression string
over the internal payload struct (`ExitMulDivMod` et al. concatenate the
operand snippets); `GoEval` wraps it into `evalIngressFilter(p) bool`.
The expression tree below is that generated code; evaluation follows Go
semantics: integer division or modulo by zero is a runtime panic, `&&` and
`||` short-circuit, operands of distinct types would not compile (modelled
as `typeError`, as is a missing payload field).  Go float64 division by
zero yields an infinity and never panics; the model returns the `Rat`
quotient (0 at zero divisors) since only panic-vs-value reaches a claim. -/

inductive GoVal where
  | vInt (n : Int)
  | vFloat (q : Rat)
  | vBool (b : Bool)
  | vStr (s : String)
  deriving DecidableEq

inductive GoPanic where
  | integerDivideByZero
  | typeError
  deriving DecidableEq

abbrev IngressPayload := List (String × GoVal)

inductive CmpOp where
  | lt
  | le
  | eqOp
  | neOp
  | ge
  | gt
  deriving DecidableEq

inductive CExpr where
  | lit (v : GoVal)
  | fieldRef (name : String)
  | add (a b : CExpr)
  | sub (a b : CExpr)
  | mul (a b : CExpr)
  | div (a b : CExpr)
  | mod (a b : CExpr)
  | cmp (op : CmpOp) (a b : CExpr)
  | land (a b : CExpr)
  | lor (a b : CExpr)
  | lnot (a : CExpr)
  deriving DecidableEq

def goAdd : GoVal → GoVal → Except GoPanic GoVal
  | GoVal.vInt a, GoVal.vInt b => Except.ok (GoVal.vInt (a + b))
  | GoVal.vFloat a, GoVal.vFloat b => Except.ok (GoVal.vFloat (a + b))
  | GoVal.vStr a, GoVal.vStr b => Except.ok (GoVal.vStr (a ++ b))
  | _, _ => Except.error GoPanic.typeError

def goSub : GoVal → GoVal → Except GoPanic GoVal
  | GoVal.vInt a, GoVal.vInt b => Except.ok (GoVal.vInt (a - b))
  | GoVal.vFloat a, GoVal.vFloat b => Except.ok (GoVal.vFloat (a - b))
  | _, _ => Except.error GoPanic.typeError

def goMul : GoVal → GoVal → Except GoPanic GoVal
  | GoVal.vInt a, GoVal.vInt b => Except.ok (GoVal.vInt (a * b))
  | GoVal.vFloat a, GoVal.vFloat b => Except.ok (GoVal.vFloat (a * b))
  | _, _ => Except.error GoPanic.typeError

/-- Go `/`: truncated integer division; `b == 0` is the
`integer divide by zero` runtime panic. -/
def goDiv : GoVal → GoVal → Except GoPanic GoVal
  | GoVal.vInt a, GoVal.vInt b =>
      if b = 0 then Except.error GoPanic.integerDivideByZero
      else Except.ok (GoVal.vInt (a.tdiv b))
  | GoVal.vFloat a, GoVal.vFloat b => Except.ok (GoVal.vFloat (a / b))
  | _, _ => Except.error GoPanic.typeError

/-- Go `%`: defined on integers only; `b == 0` panics. -/
def goMod : GoVal → GoVal → Except GoPanic GoVal
  | GoVal.vInt a, GoVal.vInt b =>
      if b = 0 then Except.error GoPanic.integerDivideByZero
      else Except.ok (GoVal.vInt (a.tmod b))
  | _, _ => Except.error GoPanic.typeError

def cmpInt (op : CmpOp) (a b : Int) : Bool :=
  match op with
  | CmpOp.lt => a < b
  | CmpOp.le => a ≤ b
  | CmpOp.eqOp => a = b
  | CmpOp.neOp => a ≠ b
  | CmpOp.ge => b ≤ a
  | CmpOp.gt => b < a

def cmpRat (op : CmpOp) (a b : Rat) : Bool :=
  match op with
  | CmpOp.lt => a < b
  | CmpOp.le => a ≤ b
  | CmpOp.eqOp => a = b
  | CmpOp.neOp => a ≠ b
  | CmpOp.ge => b ≤ a
  | CmpOp.gt => b < a

def goCompare (op : CmpOp) : GoVal → GoVal → Except GoPanic GoVal
  | GoVal.vInt a, GoVal.vInt b => Except.ok (GoVal.vBool (cmpInt op a b))
  | GoVal.vFloat a, GoVal.vFloat b => Except.ok (GoVal.vBool (cmpRat op a b))
  | GoVal.vStr a, GoVal.vStr b =>
      match op with
      | CmpOp.eqOp => Except.ok (GoVal.vBool (a = b))
      | CmpOp.neOp => Except.ok (GoVal.vBool (a ≠ b))
      | CmpOp.lt => Except.ok (GoVal.vBool (decide (a < b)))
      | CmpOp.le => Except.ok (GoVal.vBool (a = b ∨ a < b))
      | CmpOp.ge => Except.ok (GoVal.vBool (a = b ∨ b < a))
      | CmpOp.gt => Except.ok (GoVal.vBool (decide (b < a)))
  | GoVal.vBool a, GoVal.vBool b =>
      match op with
      | CmpOp.eqOp => Except.ok (GoVal.vBool (a = b))
      | CmpOp.neOp => Except.ok (GoVal.vBool (a ≠ b))
      | _ => Except.error GoPanic.typeError
  | _, _ => Except.error GoPanic.typeError

/-- Evaluation of a compiled predicate over one payload, with Go
left-to-right evaluation order and short-circuit `&&` / `||`. -/
def evalCExpr : CExpr → IngressPayload → Except GoPanic GoVal
  | CExpr.lit v, _ => Except.ok v
  | CExpr.fieldRef n, p =>
      match List.lookup n p with
      | some v => Except.ok v
      | none => Except.error GoPanic.typeError
  | CExpr.add a b, p =>
      match evalCExpr a p with
      | Except.error e => Except.error e
      | Except.ok x =>
          match evalCExpr b p with
          | Except.error e => Except.error e
          | Except.ok y => goAdd x y
  | CExpr.sub a b, p =>
      match evalCExpr a p with
      | Except.error e => Except.error e
      | Except.ok x =>
          match evalCExpr b p with
          | Except.error e => Except.error e
          | Except.ok y => goSub x y
  | CExpr.mul a b, p =>
      match evalCExpr a p with
      | Except.error e => Except.error e
      | Except.ok x =>
          match evalCExpr b p with
          | Except.error e => Except.error e
          | Except.ok y => goMul x y
  | CExpr.div a b, p =>
      match evalCExpr a p with
      | Except.error e => Except.error e
      | Except.ok x =>
          match evalCExpr b p with
          | Except.error e => Except.error e
          | Except.ok y => goDiv x y
  | CExpr.mod a b, p =>
      match evalCExpr a p with
      | Except.error e => Except.error e
      | Except.ok x =>
          match evalCExpr b p with
          | Except.error e => Except.error e
          | Except.ok y => goMod x y
  | CExpr.cmp op a b, p =>
      match evalCExpr a p with
      | Except.error e => Except.error e
      | Except.ok x =>
          match evalCExpr b p with
          | Except.error e => Except.error e
          | Except.ok y => goCompare op x y
  | CExpr.land a b, p =>
      match evalCExpr a p with
      | Except.error e => Except.error e
      | Except.ok (GoVal.vBool false) => Except.ok (GoVal.vBool false)
      | Except.ok (GoVal.vBool true) =>
          match evalCExpr b p with
          | Except.error e => Except.error e
          | Except.ok (GoVal.vBool c) => Except.ok (GoVal.vBool c)
          | Except.ok _ => Except.error GoPanic.typeError
      | Except.ok _ => Except.error GoPanic.typeError
  | CExpr.lor a b, p =>
      match evalCExpr a p with
      | Except.error e => Except.error e
      | Except.ok (GoVal.vBool true) => Except.ok (GoVal.vBool true)
      | Except.ok (GoVal.vBool false) =>
          match evalCExpr b p with
          | Except.error e => Except.error e
          | Except.ok (GoVal.vBool c) => Except.ok (GoVal.vBool c)
          | Except.ok _ => Except.error GoPanic.typeError
      | Except.ok _ => Except.error GoPanic.typeError
  | CExpr.lnot a, p =>
      match evalCExpr a p with
      | Except.error e => Except.error e
      | Except.ok (GoVal.vBool c) => Except.ok (GoVal.vBool !c)
      | Except.ok _ => Except.error GoPanic.typeError

/-- `IngressFilterWorker` (engine.go) over a finite stream: evaluate the
compiled predicate on each row, forward the row iff it passes.  There is
no recover in the worker: a panic during evaluation kills the process,
so the result of the whole run is the error. -/
def ingressFilterWorker (pred : CExpr) :
    List IngressPayload → Except GoPanic (List IngressPayload)
  | [] => Except.ok []
  | r :: rs =>
      match evalCExpr pred r with
      | Except.error p => Except.error p
      | Except.ok (GoVal.vBool true) =>
          match ingressFilterWorker pred rs with
          | Except.error p => Except.error p
          | Except.ok rest => Except.ok (r :: rest)
      | Except.ok (GoVal.vBool false) => ingressFilterWorker pred rs
      | Except.ok _ => Except.error GoPanic.typeError

/-! ## The Summer functor in full (pkg/functor, part holding Summer)

`Summer` keeps `TheType` and a float64 `Sum`; `Update` adds a float64
directly and promotes an int64 through `float64(...)`; any other input
type panics.  `Value` returns the float64 sum. -/

structure Summer where
  TheType : FieldType
  Sum : Rat
  deriving DecidableEq

def Summer.Update (f : Summer) (value : GoVal) : Option Summer :=
  match f.TheType, value with
  | FieldType.float64, GoVal.vFloat q => some ⟨f.TheType, f.Sum + q⟩
  | FieldType.integer64, GoVal.vInt n => some ⟨f.TheType, f.Sum + (n : Rat)⟩
  | _, _ => none

/-- `Init`/`Reset` then fold `Update` over a window's values, then `Value`. -/
def summerRun (t : FieldType) (vs : List GoVal) : Option Rat :=
  (vs.foldlM Summer.Update ⟨t, 0⟩).map Summer.Sum

/-! ## Concrete instances used by the checks below -/

/-- The catalog table `foo` of the worked examples: an integer64 data
field `x` and a text time field `t` (its last field). -/
def fooFields : List Field :=
  [⟨"x", FieldType.integer64, FieldUsage.data, []⟩,
   ⟨"t", FieldType.text, FieldUsage.time, []⟩]

/-- The compiled predicate of `where a / b == 1` over two integer64
fields. -/
def divByZeroPred : CExpr :=
  CExpr.cmp CmpOp.eqOp (CExpr.div (CExpr.fieldRef "a") (CExpr.fieldRef "b"))
    (CExpr.lit (GoVal.vInt 1))

/-- A row whose `b` field is zero: evaluating `a / b` on it divides by
zero. -/
def divZeroRow : IngressPayload :=
  [("a", GoVal.vInt 1), ("b", GoVal.vInt 0)]

/-- A row that satisfies `a / b == 1`. -/
def okRow : IngressPayload :=
  [("a", GoVal.vInt 2), ("b", GoVal.vInt 2)]

/-! # Theorems -/

/-! ## C1 — session window contents (ungrouped) -/

/-- C1: in Session mode without grouping, with `begin when action == "in"`,
`end when action == "out"` inclusive, on the spec input
`in, mid, mid, out, noise, in, out` the worker emits the windows
`[out]` and `[out]`: the close path resets the window slice to empty
before sending it, so the opening row and the accepted rows are discarded
and only the closing row (inclusive mode) is emitted — not the sessions
`[in, mid, mid, out]` and `[in, out]` the claim describes. -/
theorem sessionWindowWorker_discards_accumulated_rows :
    sessionRun (fun s : String => s == "in") (fun s => s == "out") true
        ["in", "mid", "mid", "out", "noise", "in", "out"]
      = (["out"], [["out"], ["out"]])
    ∧ ([["out"], ["out"]] : List (List String))
        ≠ [["in", "mid", "mid", "out"], ["in", "out"]] :=
  ⟨rfl, by decide⟩

/-! ## C2 — scenario 1 end to end -/

/-- C2 counterexample: the scenario-1 run does not produce the four rows
`(1.5, 3, 2, :04), (4, 12, 3, :17), (6, 6, 1, :26), (8, 24, 3, :49)`
the claim lists: the fourth window never closes because no later row
arrives and the reference engine has no end-of-input flush. -/
theorem scenario1_output_is_not_the_four_rows :
    scenario1Pipeline scenario1Rows
      ≠ some [⟨3/2, 3, 2, 61204⟩, ⟨4, 12, 3, 61217⟩, ⟨6, 6, 1, 61226⟩,
              ⟨8, 24, 3, 61249⟩] := by
  norm_num [scenario1Pipeline, scenario1Rows, replayTimeRun, replayTimeRunAux,
    replayTimeStep, surroundingTimeInterval, aggregateWorkerOutputs,
    scenario1AggregateRow, ratToGoInt, summerFoldX, counterValue, averagerValue,
    averagerFold, projectScenario1, projectWorkerRun, evalIngressFilterPassthrough]

/-- C2 (amended): the scenario-1 run emits exactly the three rows
`(1.5, 3, 2, :04), (4, 12, 3, :17), (6, 6, 1, :26)`; the rows at
`:40, :43, :49` remain in the final open window, which is never sent to
the aggregate stage; and no row of any emitted window lies in the
`17:00:30`–`17:00:40` bucket. -/
theorem scenario1_emits_exactly_three_rows :
    scenario1Pipeline scenario1Rows
      = some [⟨3/2, 3, 2, 61204⟩, ⟨4, 12, 3, 61217⟩, ⟨6, 6, 1, 61226⟩]
    ∧ (replayTimeRun 10 scenario1Rows).1.window
      = [⟨7, 61240⟩, ⟨8, 61243⟩, ⟨9, 61249⟩]
    ∧ ∀ w ∈ (replayTimeRun 10 scenario1Rows).2, ∀ r ∈ w,
        ¬ (61230 ≤ r.t ∧ r.t < 61240) := by
  refine ⟨?_, by decide, by decide⟩
  norm_num [scenario1Pipeline, scenario1Rows, replayTimeRun, replayTimeRunAux,
    replayTimeStep, surroundingTimeInterval, aggregateWorkerOutputs,
    scenario1AggregateRow, ratToGoInt, summerFoldX, counterValue, averagerValue,
    averagerFold, projectScenario1, projectWorkerRun, evalIngressFilterPassthrough]

/-- C2 witness: the bucket conjunct of the amended theorem applied to the
first emitted window and its first row. -/
theorem scenario1_emits_exactly_three_rows_witness :
    ¬ (61230 ≤ (⟨1, 61201⟩ : SRow).t ∧ (⟨1, 61201⟩ : SRow).t < 61240) :=
  scenario1_emits_exactly_three_rows.2.2 [⟨1, 61201⟩, ⟨2, 61204⟩] (by decide)
    ⟨1, 61201⟩ (by decide)

/-! ## C3 — replay bucket boundary -/

/-- C3: with a 10-second chunk, after a row at `t = 5` the open bucket is
`[0, 10)` with high boundary `hi = 10`; a second row with timestamp
exactly `10` — equal to the high boundary — is appended to that same
window (`hi.Before(t)` is false at `t = hi`), and no window rotation
happens, contradicting the claim that such a row belongs to the next
bucket. -/
theorem replayTime_boundary_row_joins_current_window :
    surroundingTimeInterval 5 10 = (0, 10)
    ∧ replayTimeRun 10 [⟨1, 5⟩, ⟨2, 10⟩] = (⟨10, [⟨1, 5⟩, ⟨2, 10⟩]⟩, []) :=
  ⟨rfl, rfl⟩

/-! ## C4 — aggregation over a non-existent field -/

/-- C4: compiling `avg(doesNotExist)` against table `foo(x, t)` raises no
compile error: `FindField` returns a nil error with the last field
examined (`t`), so `addAggregateFunction` silently builds a call whose
input field is `t` and the compiler goes on to emit a plan, instead of
reporting the offending token and exiting non-zero. -/
theorem findField_miss_yields_plan_not_error :
    FindField fooFields "doesNotExist"
      = Except.ok ⟨"t", FieldType.text, FieldUsage.time, []⟩
    ∧ ExitAggregateAverage fooFields "doesNotExist" "a"
      = Except.ok ⟨"average", ⟨"t", FieldType.text, FieldUsage.time, []⟩,
          "a", FieldType.float64⟩ :=
  ⟨rfl, rfl⟩

/-! ## C5 — division by zero in a filter predicate -/

/-- C5 counterexample: on the row stream `[divZeroRow, okRow]` with the
predicate `a / b == 1`, the filter worker dies with the integer
divide-by-zero panic; it does not drop the offending row and pass the
second row through as the claim states. -/
theorem divZero_crashes_filter_not_drops :
    ingressFilterWorker divByZeroPred [divZeroRow, okRow]
      = Except.error GoPanic.integerDivideByZero
    ∧ ingressFilterWorker divByZeroPred [divZeroRow, okRow]
      ≠ Except.ok [okRow] := by
  constructor
  · rfl
  · intro h
    rw [show ingressFilterWorker divByZeroPred [divZeroRow, okRow]
          = Except.error GoPanic.integerDivideByZero from rfl] at h
    exact Except.noConfusion h

/-- C5 (amended): integer division or modulo by zero in a compiled filter
predicate is a Go runtime panic, and the filter worker has no recover: the
panic aborts the whole run, so the offending row is not dropped and no
subsequent row is processed. -/
theorem divZero_panic_aborts_filter_worker :
    (∀ (e1 e2 : CExpr) (r : IngressPayload) (m : Int),
        evalCExpr e1 r = Except.ok (GoVal.vInt m) →
        evalCExpr e2 r = Except.ok (GoVal.vInt 0) →
        evalCExpr (CExpr.div e1 e2) r = Except.error GoPanic.integerDivideByZero)
    ∧ (∀ (e1 e2 : CExpr) (r : IngressPayload) (m : Int),
        evalCExpr e1 r = Except.ok (GoVal.vInt m) →
        evalCExpr e2 r = Except.ok (GoVal.vInt 0) →
        evalCExpr (CExpr.mod e1 e2) r = Except.error GoPanic.integerDivideByZero)
    ∧ (∀ (pred : CExpr) (r : IngressPayload) (rs : List IngressPayload) (p : GoPanic),
        evalCExpr pred r = Except.error p →
        ingressFilterWorker pred (r :: rs) = Except.error p) := by
  refine ⟨?_, ?_, ?_⟩
  · intro e1 e2 r m h1 h2
    simp [evalCExpr, h1, h2, goDiv]
  · intro e1 e2 r m h1 h2
    simp [evalCExpr, h1, h2, goMod]
  · intro pred r rs p h
    simp [ingressFilterWorker, h]

/-- C5 witness: the amended theorem applied at `1 / 0` and at the concrete
predicate and rows of the counterexample. -/
theorem divZero_panic_aborts_filter_worker_witness :
    evalCExpr (CExpr.div (CExpr.lit (GoVal.vInt 1)) (CExpr.lit (GoVal.vInt 0))) []
      = Except.error GoPanic.integerDivideByZero
    ∧ ingressFilterWorker divByZeroPred (divZeroRow :: [okRow])
      = Except.error GoPanic.integerDivideByZero :=
  ⟨divZero_panic_aborts_filter_worker.1 _ _ _ 1 rfl rfl,
   divZero_panic_aborts_filter_worker.2.2 divByZeroPred divZeroRow [okRow]
     GoPanic.integerDivideByZero rfl⟩

/-! ## C6 — sum output type and value -/

/-- C6 counterexample: `sum(x) as s` over the integer64 field `x` yields
an output field of type integer64, not float64 — `ExitAggregateSum`
passes a nil output-type override, so the output type is the input
field's type. -/
theorem sum_over_int64_has_int64_output :
    ExitAggregateSum fooFields "x" "s"
      = Except.ok ⟨"sum", ⟨"x", FieldType.integer64, FieldUsage.data, []⟩,
          "s", FieldType.integer64⟩
    ∧ FieldType.integer64 ≠ FieldType.float64 :=
  ⟨rfl, by decide⟩

theorem summer_int_fold (ns : List Int) (init : Rat) :
    List.foldlM Summer.Update ⟨FieldType.integer64, init⟩ (ns.map GoVal.vInt)
      = some ⟨FieldType.integer64, init + (ns.map fun n => (n : Rat)).sum⟩ := by
  induction ns generalizing init with
  | nil => simp
  | cons n ns ih => simp [Summer.Update, ih, add_assoc]

theorem summer_float_fold (qs : List Rat) (init : Rat) :
    List.foldlM Summer.Update ⟨FieldType.float64, init⟩ (qs.map GoVal.vFloat)
      = some ⟨FieldType.float64, init + qs.sum⟩ := by
  induction qs generalizing init with
  | nil => simp
  | cons q qs ih => simp [Summer.Update, ih, add_assoc]

/-- C6 (amended): the `sum` output field carries the input field's type
(float64 only when the input is float64), and the Summer accumulator is a
float64 holding the arithmetic sum of the updated values, with integer64
inputs promoted to float64. -/
theorem sum_output_type_matches_input_and_value_is_promoted_sum :
    (∀ (f : Field) (aliasName : String),
        ExitAggregateSum [f] f.name aliasName
          = Except.ok ⟨"sum", f, aliasName, f.type⟩)
    ∧ (∀ ns : List Int,
        summerRun FieldType.integer64 (ns.map GoVal.vInt)
          = some ((ns.map fun n => (n : Rat)).sum))
    ∧ (∀ qs : List Rat,
        summerRun FieldType.float64 (qs.map GoVal.vFloat) = some qs.sum) := by
  refine ⟨?_, ?_, ?_⟩
  · intro f aliasName
    simp [ExitAggregateSum, addAggregateFunction, FindField, findFieldGoAux]
  · intro ns
    simp [summerRun, summer_int_fold]
  · intro qs
    simp [summerRun, summer_float_fold]

/-! ## C7 — session expiry -/

/-- C7 counterexample: reading the rows as (action, event-time seconds),
a session opened by `("in", 0)` is still open after `("noise", 3600)` —
an hour of event time, far beyond any `expire after` duration (5 seconds
in the spec example) — and nothing has been emitted: the worker never
consults time at all. -/
theorem session_ignores_expire_duration :
    sessionRun (fun r : String × Nat => r.1 == "in") (fun r => r.1 == "out") true
        [("in", 0), ("noise", 3600)]
      = ([("in", 0), ("noise", 3600)], []) :=
  rfl

theorem sessionStep_no_close {ρ : Type} (openP closeP : ρ → Bool)
    (inclusive : Bool) (window : List ρ) (row : ρ) (h : closeP row = false) :
    (sessionStep openP closeP inclusive window row).2 = [] := by
  unfold sessionStep
  by_cases hw : window.isEmpty <;> simp [hw, h]

theorem sessionRunAux_no_close {ρ : Type} (openP closeP : ρ → Bool)
    (inclusive : Bool) (rows : List ρ) (window : List ρ)
    (h : ∀ r ∈ rows, closeP r = false) :
    (sessionRunAux openP closeP inclusive window rows).2 = [] := by
  induction rows generalizing window with
  | nil => rfl
  | cons r rs ih =>
      have hr : closeP r = false := h r (by simp)
      have hrs : ∀ x ∈ rs, closeP x = false := fun x hx => h x (by simp [hx])
      simp [sessionRunAux, sessionStep_no_close openP closeP inclusive window r hr,
        ih _ hrs]

/-- C7 (amended): the `expire after` duration is accepted by the grammar
but dropped by the compiler — the session window node's properties hold
only the window type, `"N/A"` interval fields, the unwritten slot, the
inclusivity flag and the sequence field name, no expiry — and the session
worker closes a window only on a row satisfying the end predicate, so a
stream in which no row matches the end predicate emits no window
regardless of the event-time gaps in it. -/
theorem session_closes_only_on_end_predicate :
    (∀ (inc seq : String),
        sessionWindowProperties inc seq
          = [("window_type", "session"), ("interval_type", "N/A"),
             ("interval_amount", "N/A"), ("interval_unit", "N/A"), ("", ""),
             ("session_close_inclusive", inc), ("sequence_field_name", seq)])
    ∧ ∀ (ρ : Type) (openP closeP : ρ → Bool) (inclusive : Bool) (rows : List ρ),
        (∀ r ∈ rows, closeP r = false) →
        (sessionRun openP closeP inclusive rows).2 = [] :=
  ⟨fun _ _ => rfl,
   fun _ openP closeP inclusive rows h =>
     sessionRunAux_no_close openP closeP inclusive rows [] h⟩

/-- C7 witness: the amended theorem's second conjunct at the
counterexample's rows. -/
theorem session_closes_only_on_end_predicate_witness :
    (sessionRun (fun r : String × Nat => r.1 == "in") (fun r => r.1 == "out") true
        [("in", 0), ("noise", 3600)]).2 = [] :=
  session_closes_only_on_end_predicate.2 (String × Nat) _ _ true _ (by decide)

/-! ## C8 — schema propagation -/

theorem copyOneField_id (f : Field) : copyOneField f = f := by
  cases f with
  | mk n t u ps => simp [copyOneField]

theorem copyFieldsHelper_id (fs : List Field) : copyFieldsHelper fs = fs := by
  unfold copyFieldsHelper
  rw [show copyOneField = id from funext fun f => copyOneField_id f, List.map_id]

/-- C8: for every catalog table field list and every prior compile state,
after the From clause the Ingress, IngressFilter and Window nodes carry
the identical output schema — the table's fields, same names, types,
usages and order; `copyFields` neither renames nor retypes. -/
theorem schema_propagates_ingress_to_window :
    ∀ (tableFields : List Field) (st : CompileNodes),
      (ExitFromClause tableFields st).ingressFields = some tableFields
      ∧ (ExitFromClause tableFields st).ingressFilterFields = some tableFields
      ∧ (ExitFromClause tableFields st).windowFields = some tableFields := by
  intro tf st
  refine ⟨rfl, ?_, ?_⟩ <;> simp [ExitFromClause, copyFields, copyFieldsHelper_id]

/-! ## C9 — group key collisions -/

/-- C9: the rows with group value tuples `("a", "bc")` and `("ab", "c")`
differ, yet both get the group key `"abc"` — the separator-free
concatenation of the formatted values in declared order — and appending
both to an empty window group places them in one and the same open
window. -/
theorem groupKey_collision_same_window :
    GroupKey ["u", "v"] [("u", "a"), ("v", "bc")]
      = GroupKey ["u", "v"] [("u", "ab"), ("v", "c")]
    ∧ ([("u", "a"), ("v", "bc")] : List (String × String))
      ≠ [("u", "ab"), ("v", "c")]
    ∧ (((CreateWindowGroup ["u", "v"]).Append ⟨[("u", "a"), ("v", "bc")]⟩).Append
          ⟨[("u", "ab"), ("v", "c")]⟩).windows
      = [("abc", [⟨[("u", "a"), ("v", "bc")]⟩, ⟨[("u", "ab"), ("v", "c")]⟩])] :=
  ⟨rfl, by decide, rfl⟩

/-! ## C10 — the aggregate worker stops at an empty window -/

theorem aggregateWorkerOutputs_stops_aux {ρ α : Type} (agg : List ρ → α)
    (ws1 ws2 : List (List ρ)) (h : ∀ w ∈ ws1, w ≠ []) :
    aggregateWorkerOutputs agg (ws1 ++ [] :: ws2)
      = aggregateWorkerOutputs agg ws1 := by
  induction ws1 with
  | nil => simp [aggregateWorkerOutputs]
  | cons w ws ih =>
      have hw : w ≠ [] := h w (by simp)
      have hws : ∀ x ∈ ws, x ≠ [] := fun x hx => h x (by simp [hx])
      simp [aggregateWorkerOutputs, List.isEmpty_iff, hw, ih hws]

/-- C10: the ungrouped live-time worker sends the (empty) current window
on a tick with no intervening rows, the ungrouped exclusive session close
sends an empty window, and once the aggregate worker receives any empty
window it breaks out of its receive loop: windows arriving afterwards
contribute no aggregate row. -/
theorem aggregateWorker_stops_at_first_empty_window :
    liveTimeRun ([LiveEvent.tick] : List (LiveEvent Nat)) = [[]]
    ∧ (sessionRun (fun s : String => s == "in") (fun s => s == "out") false
        ["in", "out"]).2 = [[]]
    ∧ ∀ (ρ α : Type) (agg : List ρ → α) (ws1 ws2 : List (List ρ)),
        (∀ w ∈ ws1, w ≠ []) →
        aggregateWorkerOutputs agg (ws1 ++ [] :: ws2)
          = aggregateWorkerOutputs agg ws1 :=
  ⟨rfl, rfl, fun _ _ agg ws1 ws2 h => aggregateWorkerOutputs_stops_aux agg ws1 ws2 h⟩

/-- C10 witness: the third conjunct at two non-empty windows, an empty
one, and a trailing window that indeed produces no output. -/
theorem aggregateWorker_stops_at_first_empty_window_witness :
    aggregateWorkerOutputs (fun w : List Nat => w.length) ([[1], [2]] ++ [] :: [[3]])
      = aggregateWorkerOutputs (fun w : List Nat => w.length) [[1], [2]] :=
  aggregateWorker_stops_at_first_empty_window.2.2 Nat Nat (fun w => w.length)
    [[1], [2]] [[3]] (by decide)

end Grizzly
